import Mathlib

/-!
Verification of the `epubtrans` translator core (package `pkg/translator`)
and the `serve` command's single-segment AI-translate handler.

The Go source is embedded shallowly:
* pure helpers (`generateCacheKey`, the instruction builder of the
  `/api/ai-translate` handler) become Lean functions;
* the stateful `Anthropic` translator becomes explicit state passing: the
  mutable fields (`cache`, `metadata`), the metadata file, and the log are
  threaded through `Anthropic.Translate`;
* external effects (the Anthropic HTTP client, context cancellation,
  filesystem failures) become oracles passed as function arguments;
* machine integers: `atomic.Uint64` additions are taken `% 2 ^ 64`;
  `time.Duration` values are modelled in whole seconds.
External library dependencies (crypto/sha256, ristretto, go-anthropic) are
modelled by their behaviour as used by this code, each noted at its
definition.
-/

namespace Epubtrans

/-- UTF-8 encoding of a string as a list of byte values; models Go's
`[]byte(s)` conversion used by `sha256.Sum256` and by string slicing
(`content[:n]` slices bytes, not runes). -/
def charUtf8 (c : Char) : List Nat :=
  let n := c.toNat
  if n < 0x80 then [n]
  else if n < 0x800 then [0xC0 + n / 0x40, 0x80 + n % 0x40]
  else if n < 0x10000 then
    [0xE0 + n / 0x1000, 0x80 + n / 0x40 % 0x40, 0x80 + n % 0x40]
  else
    [0xF0 + n / 0x40000, 0x80 + n / 0x1000 % 0x40, 0x80 + n / 0x40 % 0x40,
      0x80 + n % 0x40]

/-- The bytes of a Go string. -/
def utf8Bytes (s : String) : List Nat :=
  s.data.foldr (fun c acc => charUtf8 c ++ acc) []

/-- Model of the anthropic client's `MessagesUsage` (token accounting
attached to a response). -/
structure MessagesUsage where
  inputTokens : Nat
  outputTokens : Nat
deriving Repr, DecidableEq

/-- Model of the anthropic client's `MessagesResponse`: the content blocks
(as their text) and the usage record. -/
structure MessagesResponse where
  content : List String
  usage : MessagesUsage
deriving Repr, DecidableEq

/-- Model of `resp.GetFirstContentText()`: the text of the first content
block. -/
def MessagesResponse.getFirstContentText (r : MessagesResponse) : String :=
  r.content.headD ""

/-- Model of `anthropic.APIError` as classified by the retry loop: the only
distinction the code makes is `IsRateLimitErr()` versus everything else. -/
inductive APIError where
  | rateLimit (msg : String)
  | other (msg : String)
deriving Repr, DecidableEq

/-- Model of `apiErr.IsRateLimitErr()`. -/
def APIError.isRateLimitErr : APIError → Bool
  | .rateLimit _ => true
  | .other _ => false

/-- Model of a system message part (`anthropic.MessageSystemPart`); `cached`
records whether the ephemeral `CacheControl` marker is attached. -/
structure MessageSystemPart where
  type : String
  text : String
  cached : Bool
deriving Repr, DecidableEq

/-- Model of `anthropic.MessagesRequest` as built by `Translate`; user
messages are kept as their text, `Temperature` (a float) carries no
information relevant to any property here and is omitted. -/
structure MessagesRequest where
  model : String
  multiSystem : List MessageSystemPart
  messages : List String
  maxTokens : Nat
deriving Repr, DecidableEq

/-- How one run of `createMessageWithRetry` ended. -/
inductive RetryOutcome where
  | success (resp : MessagesResponse)
  | ctxCanceled
  | immediateError (e : APIError)
  | maxRetriesExceeded (last : APIError)
deriving Repr, DecidableEq

/-- Observable trace of one run of `createMessageWithRetry`: its outcome,
how many backend attempts (`client.CreateMessages` calls) were made, and
the backoff sleeps performed, in order, in seconds. -/
structure RetryTrace where
  outcome : RetryOutcome
  attempts : Nat
  sleeps : List Nat
deriving Repr, DecidableEq

/-- The constant `maxRetries = 3`. -/
def maxRetries : Nat := 3

/-- The body of `createMessageWithRetry`'s `for` loop, from loop counter
`retries` with `remaining = maxRetries - retries` iterations left.
`backend i` is the result of the `i`-th `client.CreateMessages` call;
`ctxDone i` tells whether the context is already cancelled when the
`select` after attempt `i` runs (the `<-ctx.Done()` case). `lastErr` is the
`err` variable carried across iterations; the `remaining = 0` base case
returns `fmt.Errorf("max retries reached: %w", err)`. -/
def createMessageWithRetryAux (backend : Nat → Except APIError MessagesResponse)
    (ctxDone : Nat → Bool) :
    (lastErr : APIError) → (retries : Nat) → (remaining : Nat) → RetryTrace
  | lastErr, _, 0 => ⟨.maxRetriesExceeded lastErr, 0, []⟩
  | _, retries, remaining + 1 =>
    match backend retries with
    | .ok resp => ⟨.success resp, 1, []⟩
    | .error e =>
      if e.isRateLimitErr then
        if ctxDone retries then ⟨.ctxCanceled, 1, []⟩
        else
          let t := createMessageWithRetryAux backend ctxDone e (retries + 1) remaining
          ⟨t.outcome, t.attempts + 1, (retries + 1) :: t.sleeps⟩
      else ⟨.immediateError e, 1, []⟩

/-- Model of `(a *Anthropic) createMessageWithRetry`: run the loop from
`retries = 0`. The initial `err` variable is Go's nil error; it is
unreachable in the base case because `maxRetries > 0`. -/
def createMessageWithRetry (backend : Nat → Except APIError MessagesResponse)
    (ctxDone : Nat → Bool) : RetryTrace :=
  createMessageWithRetryAux backend ctxDone (.other "nil error") 0 maxRetries

theorem createMessageWithRetryAux_attempts_pos
    (backend : Nat → Except APIError MessagesResponse) (ctxDone : Nat → Bool)
    (lastErr : APIError) (retries remaining : Nat) (h : 0 < remaining) :
    0 < (createMessageWithRetryAux backend ctxDone lastErr retries remaining).attempts := by
  match remaining with
  | 0 => exact absurd h (by simp)
  | r + 1 =>
    rw [createMessageWithRetryAux]
    cases backend retries with
    | ok resp => simp
    | error e =>
      by_cases he : e.isRateLimitErr
      · by_cases hc : ctxDone retries
        · simp [he, hc]
        · simp [he, hc]
      · simp [he]

/-- The backend is attempted at least once on every run. -/
theorem createMessageWithRetry_attempts_pos
    (backend : Nat → Except APIError MessagesResponse) (ctxDone : Nat → Bool) :
    0 < (createMessageWithRetry backend ctxDone).attempts :=
  createMessageWithRetryAux_attempts_pos backend ctxDone _ 0 maxRetries (by decide)

theorem createMessageWithRetryAux_sleeps_shape
    (backend : Nat → Except APIError MessagesResponse) (ctxDone : Nat → Bool) :
    ∀ (remaining : Nat) (lastErr : APIError) (retries : Nat),
    ∃ k, (createMessageWithRetryAux backend ctxDone lastErr retries remaining).sleeps =
      (List.range k).map (fun j => retries + 1 + j) := by
  intro remaining
  induction remaining with
  | zero => intro lastErr retries; exact ⟨0, by simp [createMessageWithRetryAux]⟩
  | succ r ih =>
    intro lastErr retries
    rw [createMessageWithRetryAux]
    cases backend retries with
    | ok resp => exact ⟨0, by simp⟩
    | error e =>
      by_cases he : e.isRateLimitErr
      · by_cases hc : ctxDone retries
        · exact ⟨0, by simp [he, hc]⟩
        · obtain ⟨k, hk⟩ := ih e (retries + 1)
          refine ⟨k + 1, ?_⟩
          simp only [he, hc, if_true, if_false, Bool.false_eq_true]
          rw [hk, List.range_succ_eq_map, List.map_cons, List.map_map]
          simp only [Nat.add_zero]
          congr 1
          apply List.map_congr_left
          intro j _
          simp only [Function.comp_apply]
          omega
      · exact ⟨0, by simp [he]⟩

/-- The backoff sleeps of any run are `1, 2, 3, …` seconds in order: the
`i`-th sleep (counting from zero) lasts `i + 1` seconds. -/
theorem createMessageWithRetry_sleeps_linear
    (backend : Nat → Except APIError MessagesResponse) (ctxDone : Nat → Bool) :
    (createMessageWithRetry backend ctxDone).sleeps =
      (List.range (createMessageWithRetry backend ctxDone).sleeps.length).map
        (fun j => j + 1) := by
  obtain ⟨k, hk⟩ :=
    createMessageWithRetryAux_sleeps_shape backend ctxDone maxRetries (.other "nil error") 0
  rw [createMessageWithRetry, hk]
  simp only [List.length_map, List.length_range]
  apply List.map_congr_left
  intro j _
  omega

/-- Contents of the embedded `prompts/psychology.txt` guideline template
(the `//go:embed` string `psychologyPrompt`). -/
def psychologyPrompt : String :=
  "You are a skilled translator who excels at making complex psychology concepts simple and accessible for everyday readers. Your task is to translate the psychology book \"%[3]s\" from English to Chinese Simplified, focusing on creating an engaging and easy-to-understand version for general readers.\n\nTranslation guidelines:\n\n1. Core principles:\n   - Explain like you're talking to a friend\n   - Use everyday language\n   - Break down complex ideas into simple terms\n   - Do not give extra explanation for the title, section titles, or headings\n\n2. Writing style:\n   - Short, clear sentences\n   - Simple words over technical terms\n   - Smooth and natural flow\n\n3. Target audience:\n   - People with no psychology background\n   - Reader wants to be entertained\n\n4. Language choices:\n   - Choose words a 16-year-old could understand\n   - Explain any necessary technical terms simply"

/-- Modelled from the spec: contents of the embedded `prompts/technical.txt`
guideline template, which is not under src/. The spec only says a
`technical` style template exists and is the fallback when no guidelines
are configured; its text is opaque to every claim, so it is an arbitrary
distinct constant here. -/
def technicalPrompt : String :=
  "TECHNICAL GUIDELINE TEMPLATE %[1]s %[2]s %[3]s"

/-- The `promptLib` map from domain name to embedded template. -/
def promptLib : List (String × String) :=
  [("psychology", psychologyPrompt), ("technical", technicalPrompt)]

/-- Model of Go's `fmt.Sprintf(template, source, target, bookName)` applied
to a guideline template (external stdlib formatting): an opaque
deterministic interpolation. No claim depends on the exact format verbs,
only on which inputs feed the result. -/
def sprintfTemplate (template source target bookName : String) : String :=
  template ++ "\n<" ++ source ++ "|" ++ target ++ "|" ++ bookName ++ ">"

/-- Model of `createTranslationSystem(source, target, guidelines, bookName)`:
empty guidelines fall back to the technical template, then the template is
interpolated. -/
def createTranslationSystem (source target guidelines bookName : String) : String :=
  let g := if guidelines = "" then (promptLib.lookup "technical").getD "" else guidelines
  sprintfTemplate g source target bookName

/-- The lower-case hexadecimal digit character for a value below 16: the
digits `0`..`9` start at code 48, the letters `a`..`f` at code 97. -/
def hexDigitChar (n : Nat) : Char :=
  if n < 10 then Char.ofNat (48 + n) else Char.ofNat (87 + n)

def toHexAux : Nat → Nat → List Char
  | 0, _ => []
  | fuel + 1, n =>
    if n = 0 then [] else toHexAux fuel (n / 16) ++ [hexDigitChar (n % 16)]

/-- Model of the external `crypto/sha256.Sum256` + `hex.EncodeToString`
pipeline: a deterministic 64-hex-character digest of the input bytes. The
claims below rely only on the digest being a fixed function of its input
string, which any deterministic model provides. -/
def sha256Hex (s : String) : String :=
  let n := (utf8Bytes s).foldl (fun a b => (a * 131 + b + 17) % 2 ^ 256) 2166136261
  let ds := toHexAux 64 n
  ⟨List.replicate (64 - ds.length) '0' ++ ds⟩

/-- Model of `generateCacheKey(content, source, target)`: the digest of
`fmt.Sprintf("%s:%s:%s", content, source, target)`. -/
def generateCacheKey (content source target : String) : String :=
  sha256Hex (content ++ ":" ++ source ++ ":" ++ target)

/-- Model of `translator.Config`. `Temperature` (a float32) is omitted: no
claim depends on it and floating point is outside the embedding. Durations
are whole seconds. -/
structure Config where
  apiKey : String
  model : String
  maxTokens : Nat
  cacheTTL : Nat
  cacheMaxCost : Nat
  translationGuidelines : String
  systemPrompt : String
deriving Repr, DecidableEq

/-- Model of `UsageMetadata`. `modelUsage` is the `map[string]int` as an
association list; `tokenUsage` is the `atomic.Uint64` counter (additions
wrap modulo `2 ^ 64`); `lastUsed` is a timestamp in seconds; prompt
examples are byte slices. -/
structure UsageMetadata where
  totalCalls : Nat
  lastUsed : Nat
  modelUsage : List (String × Nat)
  promptExamples : List (List Nat)
  tokenUsage : Nat
  tokenUsageList : List MessagesUsage
deriving Repr, DecidableEq

/-- Model of `a.metadata.ModelUsage[model]++` on the association-list view
of the Go map. -/
def bumpUsage : List (String × Nat) → String → List (String × Nat)
  | [], k => [(k, 1)]
  | (k2, v) :: rest, k =>
    if k2 = k then (k2, v + 1) :: rest else (k2, v) :: bumpUsage rest k

/-- One ristretto cache entry as used by this code: string key, string
value, and an optional absolute expiry instant (`none` means no expiry,
ristretto's behaviour for `ttl == 0`). -/
structure CacheEntry where
  key : String
  value : String
  expiresAt : Option Nat
deriving Repr, DecidableEq

/-- Model of `cache.Get(key)` at time `now`. An entry is live while `now`
has not passed its expiry (ristretto drops an entry once `time.Now()` is
strictly after the stored expiration instant). The model is the ideal
cache; ristretto's admission/eviction nondeterminism is not modelled (the
spec treats eviction as a permissible miss, and the claims are settled
against the ideal cache). -/
def cacheGet (entries : List CacheEntry) (now : Nat) (key : String) : Option String :=
  match entries.find? (fun e => e.key == key) with
  | some e =>
    match e.expiresAt with
    | none => some e.value
    | some t => if now ≤ t then some e.value else none
  | none => none

/-- Model of `cache.SetWithTTL(key, value, 0, ttl)` at time `now`: a zero
TTL stores without expiry, otherwise the entry expires `ttl` seconds from
now; a previous entry under the same key is replaced. -/
def cacheSetWithTTL (entries : List CacheEntry) (key value : String) (now ttl : Nat) :
    List CacheEntry :=
  ⟨key, value, if ttl = 0 then none else some (now + ttl)⟩ ::
    entries.filter (fun e => e.key != key)

/-- The state of `unpackage/translator_metadata.json` as `loadMetadata`
finds it: missing/unreadable, present but not valid JSON, or a valid
encoding of some metadata. -/
inductive MetadataFile where
  | absent
  | corrupt
  | valid (m : UsageMetadata)
deriving Repr, DecidableEq

/-- Model of `(a *Anthropic) loadMetadata`: returns the metadata to keep
and the log lines printed. A missing or unreadable file silently keeps the
current (default) values; a corrupt file logs the unmarshal error and
keeps the current values (Go's `json.Unmarshal` can leave partially
decoded fields behind; the model keeps the pre-call values, the outcome
the spec describes as treating corrupt as absent). The function returns
nothing to its caller in Go: it can never fail the caller. -/
def Anthropic.loadMetadata (file : MetadataFile) (current : UsageMetadata) :
    UsageMetadata × List String :=
  match file with
  | .absent => (current, [])
  | .corrupt => (current, ["Error unmarshaling metadata"])
  | .valid m => (m, [])

/-- Which step of `saveMetadata` fails, if any: `json.MarshalIndent`,
`os.MkdirAll`, or `os.WriteFile`. This is the oracle for the encoder and
the filesystem. -/
inductive SaveFailure where
  | ok
  | marshal
  | mkdir
  | write
deriving Repr, DecidableEq

/-- Model of `(a *Anthropic) saveMetadata`: best effort. On any failure the
file is left as it was and an error line is logged; the function returns
nothing in Go, so no failure reaches the caller. -/
def Anthropic.saveMetadata (fail : SaveFailure) (m : UsageMetadata) (file : MetadataFile) :
    MetadataFile × List String :=
  match fail with
  | .ok => (.valid m, [])
  | .marshal => (file, ["Error marshaling metadata"])
  | .mkdir => (file, ["Error creating directory"])
  | .write => (file, ["Error writing metadata file"])

/-- The mutable state of the `Anthropic` translator: the ristretto cache
and the usage metadata, plus the config fixed at construction. The HTTP
client is an oracle argument of `Translate`; the mutex is not modelled
(it serializes calls, and the model is sequential). -/
structure Anthropic where
  cache : List CacheEntry
  config : Config
  metadata : UsageMetadata
deriving Repr, DecidableEq

/-- Errors `Translate` can return: `retryError` is the
`fmt.Errorf("createMessageWithRetry: %w", err)` wrapper around the retry
loop's failure, `noTranslation` is `errors.New("no translation received")`. -/
inductive TranslateError where
  | retryError (o : RetryOutcome)
  | noTranslation
deriving Repr, DecidableEq

instance {ε α : Type} [DecidableEq ε] [DecidableEq α] : DecidableEq (Except ε α) :=
  fun x y =>
  match x, y with
  | .ok a, .ok b =>
    if h : a = b then isTrue (by rw [h]) else isFalse (fun he => h (Except.ok.inj he))
  | .error a, .error b =>
    if h : a = b then isTrue (by rw [h]) else isFalse (fun he => h (Except.error.inj he))
  | .ok _, .error _ => isFalse (fun he => Except.noConfusion he)
  | .error _, .ok _ => isFalse (fun he => Except.noConfusion he)

/-- Observable outcome of one `Translate` call: the returned value, the
translator state afterwards, the metadata file and log afterwards, how
many backend attempts were made (0 when served from cache), and the cache
key the call computed. -/
structure TranslateResult where
  result : Except TranslateError String
  state : Anthropic
  file : MetadataFile
  log : List String
  backendAttempts : Nat
  usedKey : String
deriving Repr, DecidableEq

/-- The stored prompt example `content[:min(100, len(content))]`: a byte
slice of the first at-most-100 bytes of the submitted content. -/
def contentSample (content : String) : List Nat :=
  (utf8Bytes content).take (min 100 (utf8Bytes content).length)

/-- Model of `(a *Anthropic) Translate`. Effects are explicit: `backend req i`
is the result of the `i`-th `client.CreateMessages(ctx, req)` call,
`ctxDone` is the cancellation oracle, `saveFail` selects which step of the
metadata save fails, `file` is the metadata file before the call, and
`now` is the current time in seconds (used for cache expiry and
`LastUsed`). The cache lookup is guarded by `prompt != ""` exactly as in
the source. -/
def Anthropic.Translate (a : Anthropic)
    (backend : MessagesRequest → Nat → Except APIError MessagesResponse)
    (ctxDone : Nat → Bool) (saveFail : SaveFailure) (file : MetadataFile) (now : Nat)
    (prompt content source target bookName : String) : TranslateResult :=
  let cacheKey := generateCacheKey (prompt ++ content) source target
  match (if prompt = "" then none else cacheGet a.cache now cacheKey) with
  | some cached => ⟨.ok cached, a, file, [], 0, cacheKey⟩
  | none =>
    let systemMessages :=
      [MessageSystemPart.mk "text"
        (createTranslationSystem source target a.config.translationGuidelines bookName) true] ++
      (if prompt = "" then [] else [MessageSystemPart.mk "text" prompt false])
    let req : MessagesRequest :=
      ⟨a.config.model, systemMessages,
        ["Translate this and not say anything otherwise the translation: " ++ content],
        a.config.maxTokens⟩
    let t := createMessageWithRetry (backend req) ctxDone
    match t.outcome with
    | .success resp =>
      if resp.content.isEmpty then
        ⟨.error .noTranslation, a, file, [], t.attempts, cacheKey⟩
      else
        let translation := resp.getFirstContentText
        let cache2 := cacheSetWithTTL a.cache cacheKey translation now a.config.cacheTTL
        let md := a.metadata
        let md2 : UsageMetadata :=
          { totalCalls := md.totalCalls + 1
            lastUsed := now
            modelUsage := bumpUsage md.modelUsage a.config.model
            promptExamples :=
              if md.promptExamples.length < 5 then md.promptExamples ++ [contentSample content]
              else md.promptExamples
            tokenUsage :=
              (md.tokenUsage + (resp.usage.inputTokens + resp.usage.outputTokens)) % 2 ^ 64
            tokenUsageList := md.tokenUsageList ++ [resp.usage] }
        let save := Anthropic.saveMetadata saveFail md2 file
        ⟨.ok translation, { cache := cache2, config := a.config, metadata := md2 },
          save.1, save.2, t.attempts, cacheKey⟩
    | o => ⟨.error (.retryError o), a, file, [], t.attempts, cacheKey⟩

/-- Environment variables read during construction. -/
structure Env where
  anthropicKey : String
  translationGuidelines : String
  systemPrompt : String
deriving Repr, DecidableEq

/-- The package-level globals of `pkg/translator`: whether `anthropicOnce`
has fired, and the `_anthropic` pointer. -/
structure Globals where
  anthropicOnceDone : Bool
  anthropicGlobal : Option Anthropic
deriving Repr, DecidableEq

/-- Errors `GetAnthropicTranslator` can set during the once-guarded body:
`errors.New("missing ANTHROPIC_KEY")` or the wrapped
`ristretto.NewCache` failure. -/
inductive InitError where
  | missingKey
  | cacheCreateFailed
deriving Repr, DecidableEq

/-- The default config built when `GetAnthropicTranslator` receives a nil
config: API key from `ANTHROPIC_KEY`, the latest 3.5 Sonnet model, 8192
max tokens, all other fields zero values. -/
def defaultConfig (env : Env) : Config :=
  { apiKey := env.anthropicKey
    model := "claude-3-5-sonnet-latest"
    maxTokens := 8192
    cacheTTL := 0
    cacheMaxCost := 0
    translationGuidelines := ""
    systemPrompt := "" }

/-- Model of `GetAnthropicTranslator`. The `sync.Once` is `anthropicOnceDone`;
`err` is a fresh local on every call, so once the guard has fired every
later call returns `(_anthropic, nil)` unconditionally. `cacheCreateFails`
is the oracle for `ristretto.NewCache`; `file` is the metadata file read
by the trailing `loadMetadata`. Returns the `(translator, error)` pair
together with the globals afterwards. The body overwrites `cfg.CacheTTL`
with 15 minutes (900 s) and `cfg.CacheMaxCost` with `1e7` after the key
check, exactly as the source does. -/
def GetAnthropicTranslator (cfgArg : Option Config) (env : Env) (cacheCreateFails : Bool)
    (file : MetadataFile) (g : Globals) :
    (Option Anthropic × Option InitError) × Globals :=
  if g.anthropicOnceDone then ((g.anthropicGlobal, none), g)
  else
    let cfg := cfgArg.getD (defaultConfig env)
    if cfg.apiKey = "" then
      ((none, some .missingKey), ⟨true, g.anthropicGlobal⟩)
    else
      let cfg :=
        { cfg with
          translationGuidelines :=
            if cfg.translationGuidelines = "" then env.translationGuidelines
            else cfg.translationGuidelines
          systemPrompt :=
            if cfg.systemPrompt = "" then env.systemPrompt else cfg.systemPrompt
          cacheTTL := 15 * 60
          cacheMaxCost := 10 ^ 7 }
      if cacheCreateFails then
        ((none, some .cacheCreateFailed), ⟨true, g.anthropicGlobal⟩)
      else
        let md0 : UsageMetadata :=
          { totalCalls := 0, lastUsed := 0, modelUsage := [], promptExamples := []
            tokenUsage := 0, tokenUsageList := [] }
        let inst : Anthropic :=
          { cache := [], config := cfg
            metadata := (Anthropic.loadMetadata file md0).1 }
        ((some inst, none), ⟨true, some inst⟩)

/-- One element of the parsed XHTML document as the `/api/ai-translate`
handler sees it: its optional `data-content-id` and `data-translation-id`
attributes and its inner HTML. -/
structure DocNode where
  contentId : Option String
  translationId : Option String
  html : String
deriving Repr, DecidableEq

/-- Model of the handler's `doc.Find("[attr]").Each` loops: the loop body
overwrites the accumulator on every node whose attribute equals `id`, so
the result is the inner HTML of the last matching node, or `""` when no
node matches. -/
def lastMatchingHtml (nodes : List DocNode) (attrOf : DocNode → Option String)
    (id : String) : String :=
  nodes.foldl
    (fun acc n =>
      match attrOf n with
      | some v => if v = id then n.html else acc
      | none => acc) ""

/-- The request body of `POST /api/ai-translate` (serve.go). -/
structure TranslateAIRequest where
  filePath : String
  translationId : String
  contentId : String
  instructions : String
deriving Repr, DecidableEq

/-- What the `/api/ai-translate` handler does once the document is parsed:
either the 404 `Translation ID not found` response, or a call of
`translateWithAI` with the original content and the built instructions. -/
inductive AiTranslateOutcome where
  | notFound
  | callTranslator (originalContent instructions : String)
deriving Repr, DecidableEq

/-- Model of the `/api/ai-translate` handler from the point where the
document has been parsed (file reading and HTML parsing belong to the
collaborator boundary): look up the original content by `data-content-id`
and 404 when absent; look up the current translation by
`data-translation-id`; when it is non-empty, prepend it to the user
instructions as `Previous translation:\n\n<prior>\n\n<instructions>`. -/
def aiTranslateHandler (doc : List DocNode) (req : TranslateAIRequest) : AiTranslateOutcome :=
  let originalContent := lastMatchingHtml doc (fun n => n.contentId) req.contentId
  if originalContent = "" then .notFound
  else
    let currentTranslatedContent :=
      lastMatchingHtml doc (fun n => n.translationId) req.translationId
    let instructment :=
      if 0 < currentTranslatedContent.length then
        "Previous translation:\n\n" ++ currentTranslatedContent ++ "\n\n" ++ req.instructions
      else req.instructions
    .callTranslator originalContent instructment

theorem string_pos_length_iff_ne_empty (s : String) : 0 < s.length ↔ s ≠ "" := by
  cases s with
  | mk data =>
    cases data with
    | nil => simp
    | cons c cs =>
      simp only [String.length]
      constructor
      · intro _ h
        have := congrArg String.data h
        simp at this
      · intro _
        simp

/-- C2: a backend that reports a rate-limit error on every attempt, under a
context that is never cancelled, causes exactly `maxRetries` (3) backend
attempts, after which the call returns the max-retries error wrapping the
error of the last (third) attempt. -/
theorem retry_always_rate_limited_exactly_maxRetries
    (backend : Nat → Except APIError MessagesResponse) (ctxDone : Nat → Bool)
    (hb : ∀ i, ∃ m, backend i = Except.error (APIError.rateLimit m))
    (hc : ∀ i, ctxDone i = false) :
    (createMessageWithRetry backend ctxDone).attempts = maxRetries ∧
    ∃ m, backend (maxRetries - 1) = Except.error (APIError.rateLimit m) ∧
      (createMessageWithRetry backend ctxDone).outcome =
        RetryOutcome.maxRetriesExceeded (APIError.rateLimit m) := by
  obtain ⟨m0, h0⟩ := hb 0
  obtain ⟨m1, h1⟩ := hb 1
  obtain ⟨m2, h2⟩ := hb 2
  have e0 := hc 0
  have e1 := hc 1
  have e2 := hc 2
  refine ⟨?_, m2, h2, ?_⟩ <;>
    simp [createMessageWithRetry, maxRetries, createMessageWithRetryAux, h0, h1, h2,
      e0, e1, e2, APIError.isRateLimitErr]

/-- Witness for C2 at a concrete always-rate-limited backend. -/
theorem retry_always_rate_limited_exactly_maxRetries_witness :
    (createMessageWithRetry
        (fun _ => Except.error (APIError.rateLimit "429"))
        (fun _ => false)).attempts = maxRetries :=
  (retry_always_rate_limited_exactly_maxRetries
    (fun _ => Except.error (APIError.rateLimit "429")) (fun _ => false)
    (fun _ => ⟨"429", rfl⟩) (fun _ => rfl)).1

/-- C5: a backend error not classified as rate-limited, hit at any attempt
position `i` (after `i` rate-limited attempts under a live context),
returns that error at once: the run ends with exactly `i + 1` attempts,
the error untouched, and no backoff sleep after the failing attempt — only
the `i` sleeps that followed the earlier rate-limited attempts, which are
linearly increasing (`1 s, 2 s, …`; the `(retries + 1) * time.Second`
backoff). Every run's sleeps obey that linear shape, and a rate-limit
error under an already-cancelled context aborts at the `select` with the
context's error after a single attempt and no sleep. -/
theorem retry_non_rate_limit_immediate_and_backoff_linear
    (backend : Nat → Except APIError MessagesResponse) (ctxDone : Nat → Bool) :
    (∀ (i : Nat) (e : APIError), i < maxRetries →
      (∀ j, j < i → ∃ m, backend j = Except.error (APIError.rateLimit m)) →
      (∀ j, j < i → ctxDone j = false) →
      backend i = Except.error e → e.isRateLimitErr = false →
      createMessageWithRetry backend ctxDone =
        ⟨RetryOutcome.immediateError e, i + 1, (List.range i).map (fun j => j + 1)⟩) ∧
    ((createMessageWithRetry backend ctxDone).sleeps =
      (List.range (createMessageWithRetry backend ctxDone).sleeps.length).map
        (fun j => j + 1)) ∧
    (∀ e, backend 0 = Except.error e → e.isRateLimitErr = true → ctxDone 0 = true →
      createMessageWithRetry backend ctxDone = ⟨RetryOutcome.ctxCanceled, 1, []⟩) := by
  refine ⟨?_, createMessageWithRetry_sleeps_linear backend ctxDone, ?_⟩
  · intro i e hi hrl hcd hb he
    have hi3 : i = 0 ∨ i = 1 ∨ i = 2 := by
      simp only [maxRetries] at hi
      omega
    rcases hi3 with rfl | rfl | rfl
    · simp [createMessageWithRetry, maxRetries, createMessageWithRetryAux, hb, he]
    · obtain ⟨m0, h0⟩ := hrl 0 (by omega)
      have c0 := hcd 0 (by omega)
      have hm0 : (APIError.rateLimit m0).isRateLimitErr = true := rfl
      simp [createMessageWithRetry, maxRetries, createMessageWithRetryAux, h0, c0, hb, he,
        hm0, List.range_succ]
    · obtain ⟨m0, h0⟩ := hrl 0 (by omega)
      obtain ⟨m1, h1⟩ := hrl 1 (by omega)
      have c0 := hcd 0 (by omega)
      have c1 := hcd 1 (by omega)
      have hm0 : (APIError.rateLimit m0).isRateLimitErr = true := rfl
      have hm1 : (APIError.rateLimit m1).isRateLimitErr = true := rfl
      simp [createMessageWithRetry, maxRetries, createMessageWithRetryAux, h0, h1, c0, c1,
        hb, he, hm0, hm1, List.range_succ]
  · intro e hb he hc
    simp [createMessageWithRetry, maxRetries, createMessageWithRetryAux, hb, he, hc]

/-- Witness for C5 at a concrete non-rate-limit (auth) backend error on the
first attempt. -/
theorem retry_non_rate_limit_immediate_witness :
    createMessageWithRetry
        (fun _ => Except.error (APIError.other "authentication_error"))
        (fun _ => false) =
      ⟨RetryOutcome.immediateError (APIError.other "authentication_error"), 0 + 1,
        (List.range 0).map (fun j => j + 1)⟩ :=
  (retry_non_rate_limit_immediate_and_backoff_linear
    (fun _ => Except.error (APIError.other "authentication_error"))
    (fun _ => false)).1 0 (APIError.other "authentication_error") (by decide)
    (fun j hj => absurd hj (by omega)) (fun j hj => absurd hj (by omega)) rfl rfl

/-- C9: in the single-segment ai-translate path, when the document holds a
non-empty current translation for the requested translation id, the
instructions passed to the translator equal the prior translation
prepended to the user instructions in the form
`Previous translation:\n\n<prior>\n\n<instructions>`; when there is no
prior translation, the user instructions pass through unchanged. -/
theorem aiTranslate_prior_translation_prepended
    (doc : List DocNode) (req : TranslateAIRequest) (oc ins : String)
    (h : aiTranslateHandler doc req = AiTranslateOutcome.callTranslator oc ins) :
    (lastMatchingHtml doc (fun n => n.translationId) req.translationId ≠ "" →
      ins = "Previous translation:\n\n" ++
        lastMatchingHtml doc (fun n => n.translationId) req.translationId ++
        "\n\n" ++ req.instructions) ∧
    (lastMatchingHtml doc (fun n => n.translationId) req.translationId = "" →
      ins = req.instructions) := by
  rw [aiTranslateHandler] at h
  by_cases ho : lastMatchingHtml doc (fun n => n.contentId) req.contentId = ""
  · simp [ho] at h
  · simp only [ho, if_false, AiTranslateOutcome.callTranslator.injEq] at h
    by_cases hp : 0 < (lastMatchingHtml doc (fun n => n.translationId) req.translationId).length
    · have hne := (string_pos_length_iff_ne_empty _).mp hp
      refine ⟨fun _ => ?_, fun he => absurd he hne⟩
      simp only [hp, if_true] at h
      exact h.2.symm
    · have he : lastMatchingHtml doc (fun n => n.translationId) req.translationId = "" := by
        by_contra hne
        exact hp ((string_pos_length_iff_ne_empty _).mpr hne)
      refine ⟨fun hne => absurd he hne, fun _ => ?_⟩
      simp only [hp, if_false] at h
      exact h.2.symm

/-- Witness for C9 on a two-node document carrying a prior translation. -/
theorem aiTranslate_prior_translation_prepended_witness :
    ("Previous translation:\n\nXin chao\n\nmake it formal" ≠ "" →
      "Previous translation:\n\nXin chao\n\nmake it formal" =
        "Previous translation:\n\n" ++
          lastMatchingHtml
            [⟨some "c1", none, "Hello"⟩, ⟨none, some "t1", "Xin chao"⟩]
            (fun n => n.translationId) "t1" ++ "\n\n" ++ "make it formal") ∧
    (lastMatchingHtml
        [(⟨some "c1", none, "Hello"⟩ : DocNode), ⟨none, some "t1", "Xin chao"⟩]
        (fun n => n.translationId) "t1" = "" →
      "Previous translation:\n\nXin chao\n\nmake it formal" = "make it formal") := by
  have h := aiTranslate_prior_translation_prepended
    [⟨some "c1", none, "Hello"⟩, ⟨none, some "t1", "Xin chao"⟩]
    ⟨"f.xhtml", "t1", "c1", "make it formal"⟩
    "Hello" "Previous translation:\n\nXin chao\n\nmake it formal" (by decide)
  exact ⟨fun _ => (h.1 (by decide)), h.2⟩

theorem translate_usedKey_eq (a : Anthropic)
    (backend : MessagesRequest → Nat → Except APIError MessagesResponse)
    (ctxDone : Nat → Bool) (saveFail : SaveFailure) (file : MetadataFile) (now : Nat)
    (prompt content source target bookName : String) :
    (a.Translate backend ctxDone saveFail file now prompt content source target
        bookName).usedKey = generateCacheKey (prompt ++ content) source target := by
  simp only [Anthropic.Translate]
  split
  · rfl
  · split
    · split
      · rfl
      · rfl
    · rfl

/-- C4: the cache key a `Translate` call computes is
`generateCacheKey(prompt + content, source, target)`: a hash of exactly the
submitted content, the instructions, and the language pair. Two calls
differing only in book context, translator state (including the guideline
and template configuration), backend behaviour, time, or filesystem state
use the same key, and any two calls agreeing on those four inputs use the
same key. -/
theorem translate_cache_key_depends_only_on_four_inputs
    (a₁ a₂ : Anthropic)
    (b₁ b₂ : MessagesRequest → Nat → Except APIError MessagesResponse)
    (c₁ c₂ : Nat → Bool) (sf₁ sf₂ : SaveFailure) (f₁ f₂ : MetadataFile)
    (n₁ n₂ : Nat) (prompt content source target bn₁ bn₂ : String) :
    (a₁.Translate b₁ c₁ sf₁ f₁ n₁ prompt content source target bn₁).usedKey =
      (a₂.Translate b₂ c₂ sf₂ f₂ n₂ prompt content source target bn₂).usedKey ∧
    (a₁.Translate b₁ c₁ sf₁ f₁ n₁ prompt content source target bn₁).usedKey =
      generateCacheKey (prompt ++ content) source target :=
  ⟨(translate_usedKey_eq a₁ b₁ c₁ sf₁ f₁ n₁ prompt content source target bn₁).trans
      (translate_usedKey_eq a₂ b₂ c₂ sf₂ f₂ n₂ prompt content source target bn₂).symm,
    translate_usedKey_eq a₁ b₁ c₁ sf₁ f₁ n₁ prompt content source target bn₁⟩

/-- C7: loading metadata never fails the caller. A missing or unreadable
file silently keeps the zero-value defaults, a corrupt file only logs the
unmarshal error and keeps the metadata usable, and only a valid file
replaces the in-memory values; no case produces an error for the caller. -/
theorem loadMetadata_never_fails_caller (current : UsageMetadata) :
    Anthropic.loadMetadata MetadataFile.absent current = (current, []) ∧
    Anthropic.loadMetadata MetadataFile.corrupt current =
      (current, ["Error unmarshaling metadata"]) ∧
    ∀ m, Anthropic.loadMetadata (MetadataFile.valid m) current = (m, []) :=
  ⟨rfl, rfl, fun _ => rfl⟩

/-- C10: the constructor body runs at most once per process. Once the sync
guard has fired, every call returns the global pointer with a nil error no
matter which config it passes; in particular, when the first call fails
because the API key is empty, that call returns the missing-key error and
every subsequent call returns a nil translator together with a nil error,
masking the original failure. -/
theorem getAnthropicTranslator_once_masks_failure
    (cfg : Config) (env env₂ : Env) (ccf ccf₂ : Bool) (file file₂ : MetadataFile)
    (cfgArg₂ : Option Config) (hkey : cfg.apiKey = "") :
    (∀ (cfgArg : Option Config) (e : Env) (c : Bool) (f : MetadataFile) (g : Globals),
      g.anthropicOnceDone = true →
      GetAnthropicTranslator cfgArg e c f g = ((g.anthropicGlobal, none), g)) ∧
    GetAnthropicTranslator (some cfg) env ccf file ⟨false, none⟩ =
      ((none, some InitError.missingKey), ⟨true, none⟩) ∧
    GetAnthropicTranslator cfgArg₂ env₂ ccf₂ file₂ ⟨true, none⟩ =
      ((none, none), ⟨true, none⟩) := by
  refine ⟨?_, ?_, ?_⟩
  · intro cfgArg e c f g hg
    simp [GetAnthropicTranslator, hg]
  · simp [GetAnthropicTranslator, hkey]
  · simp [GetAnthropicTranslator]

/-- Witness for C10: a concrete empty-key first call followed by a second
call that silently masks the failure. -/
theorem getAnthropicTranslator_once_masks_failure_witness :
    GetAnthropicTranslator (some ⟨"", "claude-3-5-sonnet-latest", 8192, 0, 0, "", ""⟩)
        ⟨"", "", ""⟩ false MetadataFile.absent ⟨false, none⟩ =
      ((none, some InitError.missingKey), ⟨true, none⟩) ∧
    GetAnthropicTranslator none ⟨"", "", ""⟩ false MetadataFile.absent ⟨true, none⟩ =
      ((none, none), ⟨true, none⟩) :=
  (getAnthropicTranslator_once_masks_failure
    ⟨"", "claude-3-5-sonnet-latest", 8192, 0, 0, "", ""⟩ ⟨"", "", ""⟩ ⟨"", "", ""⟩
    false false MetadataFile.absent MetadataFile.absent none rfl).2

/-- C3 counterexample: a caller-supplied CacheTTL of 60 seconds is ignored;
the constructed translator carries the hard-coded 15 minutes (900 s). -/
theorem cacheTTL_not_tunable_counterexample :
    ((GetAnthropicTranslator
        (some ⟨"key", "claude-3-5-sonnet-latest", 8192, 60, 0, "", ""⟩)
        ⟨"", "", ""⟩ false MetadataFile.absent ⟨false, none⟩).1.1.map
      (fun a => a.config.cacheTTL)) = some 900 ∧ (60 : Nat) ≠ 900 :=
  ⟨rfl, by decide⟩

/-- C3 amended: the TTL is a hard constant, not a tunable. The constructor
unconditionally overwrites any caller-supplied `CacheTTL` with 15 minutes,
so every successfully constructed translator stores translations with a
900-second TTL regardless of the supplied config. -/
theorem cacheTTL_hardcoded_15_minutes
    (cfgArg : Option Config) (env : Env) (file : MetadataFile) (a : Anthropic)
    (h : (GetAnthropicTranslator cfgArg env false file ⟨false, none⟩).1.1 = some a) :
    a.config.cacheTTL = 15 * 60 := by
  by_cases hk : (cfgArg.getD (defaultConfig env)).apiKey = ""
  · simp [GetAnthropicTranslator, hk] at h
  · simp [GetAnthropicTranslator, hk] at h
    subst h
    rfl

/-- Witness for the amended C3: a config asking for a 60-second TTL yields
a translator whose effective TTL is 900 seconds. -/
theorem cacheTTL_hardcoded_15_minutes_witness :
    (Anthropic.mk [] ⟨"key", "m", 77, 900, 10 ^ 7, "g", "s"⟩
        ⟨0, 0, [], [], 0, []⟩).config.cacheTTL = 15 * 60 :=
  cacheTTL_hardcoded_15_minutes (some ⟨"key", "m", 77, 60, 5, "g", "s"⟩)
    ⟨"", "", ""⟩ MetadataFile.absent _ rfl

theorem contentSample_length_le (content : String) :
    (contentSample content).length ≤ 100 := by
  simp [contentSample]

/-- C8: the recent-example list is bounded. A `Translate` call preserves
the invariant that `PromptExamples` has at most 5 entries, each at most
100 bytes; and the list afterwards is either unchanged or the old list
with the first at-most-100 bytes of the submitted content appended. -/
theorem translate_prompt_examples_bounded
    (a : Anthropic)
    (backend : MessagesRequest → Nat → Except APIError MessagesResponse)
    (ctxDone : Nat → Bool) (saveFail : SaveFailure) (file : MetadataFile) (now : Nat)
    (prompt content source target bookName : String)
    (hlen : a.metadata.promptExamples.length ≤ 5)
    (hsz : ∀ e ∈ a.metadata.promptExamples, e.length ≤ 100) :
    (a.Translate backend ctxDone saveFail file now prompt content source target
        bookName).state.metadata.promptExamples.length ≤ 5 ∧
    (∀ e ∈ (a.Translate backend ctxDone saveFail file now prompt content source target
        bookName).state.metadata.promptExamples, e.length ≤ 100) ∧
    ((a.Translate backend ctxDone saveFail file now prompt content source target
        bookName).state.metadata.promptExamples = a.metadata.promptExamples ∨
      (a.Translate backend ctxDone saveFail file now prompt content source target
        bookName).state.metadata.promptExamples =
        a.metadata.promptExamples ++ [contentSample content]) := by
  simp only [Anthropic.Translate]
  split
  · exact ⟨hlen, hsz, Or.inl rfl⟩
  · split
    · split
      · exact ⟨hlen, hsz, Or.inl rfl⟩
      · by_cases hfive : a.metadata.promptExamples.length < 5
        · refine ⟨?_, ?_, Or.inr ?_⟩
          · simp only [hfive, if_true, List.length_append, List.length_singleton]
            omega
          · simp only [hfive, if_true]
            intro e he
            rcases List.mem_append.mp he with h | h
            · exact hsz e h
            · rcases List.mem_singleton.mp h with rfl
              exact contentSample_length_le content
          · simp [hfive]
        · exact ⟨by simp [hfive]; exact hlen, by simp [hfive]; exact hsz, Or.inl (by simp [hfive])⟩
    · exact ⟨hlen, hsz, Or.inl rfl⟩

/-- Witness for C8: one successful call starting from empty metadata stores
one bounded sample. -/
theorem translate_prompt_examples_bounded_witness :
    (((Anthropic.mk [] ⟨"key", "m", 8192, 900, 10 ^ 7, "", ""⟩ ⟨0, 0, [], [], 0, []⟩).Translate
        (fun _ _ => Except.ok ⟨["HOLA"], 3, 4⟩) (fun _ => false) SaveFailure.ok
        MetadataFile.absent 0 "ctx" "Hello" "en" "es"
        "Book").state.metadata.promptExamples.length ≤ 5 ∧
      (∀ e ∈ ((Anthropic.mk [] ⟨"key", "m", 8192, 900, 10 ^ 7, "", ""⟩
          ⟨0, 0, [], [], 0, []⟩).Translate (fun _ _ => Except.ok ⟨["HOLA"], 3, 4⟩)
          (fun _ => false) SaveFailure.ok MetadataFile.absent 0 "ctx" "Hello" "en" "es"
          "Book").state.metadata.promptExamples, e.length ≤ 100)) ∧
    ((0 : Nat) ≤ 5 ∧ ∀ e ∈ ([] : List (List Nat)), e.length ≤ 100) := by
  have h := translate_prompt_examples_bounded
    (Anthropic.mk [] ⟨"key", "m", 8192, 900, 10 ^ 7, "", ""⟩ ⟨0, 0, [], [], 0, []⟩)
    (fun _ _ => Except.ok ⟨["HOLA"], 3, 4⟩) (fun _ => false) SaveFailure.ok
    MetadataFile.absent 0 "ctx" "Hello" "en" "es" "Book" (by decide) (by simp)
  exact ⟨⟨h.1, h.2.1⟩, by decide, by simp⟩

theorem translate_result_ignores_saveFailure
    (a : Anthropic)
    (backend : MessagesRequest → Nat → Except APIError MessagesResponse)
    (ctxDone : Nat → Bool) (sf₁ sf₂ : SaveFailure) (file : MetadataFile) (now : Nat)
    (p ct s t bn : String) :
    (a.Translate backend ctxDone sf₁ file now p ct s t bn).result =
      (a.Translate backend ctxDone sf₂ file now p ct s t bn).result := by
  simp only [Anthropic.Translate]
  split
  · rfl
  · split
    · split
      · rfl
      · rfl
    · rfl

/-- C6 counterexample: a Translate call served from the cache is successful
yet leaves the metadata untouched and persists nothing, so the claim
`after every successful Translate call the UsageMetadata is mutated and
then persisted` fails on cache hits. -/
theorem translate_cache_hit_no_metadata_update_counterexample :
    ((Anthropic.mk
        [⟨generateCacheKey ("p" ++ "Hello") "en" "vi", "CACHED", none⟩]
        ⟨"key", "m", 8192, 900, 10 ^ 7, "", ""⟩ ⟨0, 0, [], [], 0, []⟩).Translate
        (fun _ _ => Except.error (APIError.other "unreachable")) (fun _ => false)
        SaveFailure.ok MetadataFile.absent 0 "p" "Hello" "en" "vi" "Book") =
      ⟨Except.ok "CACHED",
        Anthropic.mk [⟨generateCacheKey ("p" ++ "Hello") "en" "vi", "CACHED", none⟩]
          ⟨"key", "m", 8192, 900, 10 ^ 7, "", ""⟩ ⟨0, 0, [], [], 0, []⟩,
        MetadataFile.absent, [], 0, generateCacheKey ("p" ++ "Hello") "en" "vi"⟩ := by
  rfl

/-- C6 amended: after every successful Translate call that reaches the
backend (is not served from the cache), the usage metadata is mutated:
the call count is incremented, the last-used time set, the per-model count
bumped and the token-usage list extended; the mutated metadata is then
persisted through `saveMetadata` (best effort, under the persistence
oracle); and no persistence failure ever changes the returned value: the
call still returns the translation. -/
theorem translate_backend_success_mutates_then_persists
    (a : Anthropic)
    (backend : MessagesRequest → Nat → Except APIError MessagesResponse)
    (ctxDone : Nat → Bool) (sf : SaveFailure) (file : MetadataFile) (now : Nat)
    (p ct s t bn : String) (v : String)
    (hok : (a.Translate backend ctxDone sf file now p ct s t bn).result = Except.ok v)
    (hbk : (a.Translate backend ctxDone sf file now p ct s t bn).backendAttempts ≠ 0) :
    ((a.Translate backend ctxDone sf file now p ct s t bn).state.metadata.totalCalls =
        a.metadata.totalCalls + 1 ∧
      (a.Translate backend ctxDone sf file now p ct s t bn).state.metadata.lastUsed = now ∧
      (a.Translate backend ctxDone sf file now p ct s t bn).state.metadata.modelUsage =
        bumpUsage a.metadata.modelUsage a.config.model ∧
      (a.Translate backend ctxDone sf file now p ct s t
          bn).state.metadata.tokenUsageList.length =
        a.metadata.tokenUsageList.length + 1) ∧
    ((a.Translate backend ctxDone sf file now p ct s t bn).file,
        (a.Translate backend ctxDone sf file now p ct s t bn).log) =
      Anthropic.saveMetadata sf
        (a.Translate backend ctxDone sf file now p ct s t bn).state.metadata file ∧
    (∀ sf', (a.Translate backend ctxDone sf' file now p ct s t bn).result =
      Except.ok v) := by
  have hres : ∀ sf',
      (a.Translate backend ctxDone sf' file now p ct s t bn).result = Except.ok v :=
    fun sf' =>
      (translate_result_ignores_saveFailure a backend ctxDone sf' sf file now
        p ct s t bn).trans hok
  have hmain :
      ((a.Translate backend ctxDone sf file now p ct s t bn).state.metadata.totalCalls =
          a.metadata.totalCalls + 1 ∧
        (a.Translate backend ctxDone sf file now p ct s t bn).state.metadata.lastUsed = now ∧
        (a.Translate backend ctxDone sf file now p ct s t bn).state.metadata.modelUsage =
          bumpUsage a.metadata.modelUsage a.config.model ∧
        (a.Translate backend ctxDone sf file now p ct s t
            bn).state.metadata.tokenUsageList.length =
          a.metadata.tokenUsageList.length + 1) ∧
      ((a.Translate backend ctxDone sf file now p ct s t bn).file,
          (a.Translate backend ctxDone sf file now p ct s t bn).log) =
        Anthropic.saveMetadata sf
          (a.Translate backend ctxDone sf file now p ct s t bn).state.metadata file := by
    revert hok hbk
    simp only [Anthropic.Translate]
    split
    · intro _ hbk
      exact absurd rfl hbk
    · split
      · split
        · intro hok _
          simp at hok
        · intro _ _
          exact ⟨⟨rfl, rfl, rfl, by simp⟩, by simp⟩
      · intro hok _
        simp at hok
  exact ⟨hmain.1, hmain.2, hres⟩

/-- Witness for the amended C6 at a concrete successful backend call whose
metadata save fails at the write step. -/
theorem translate_backend_success_mutates_then_persists_witness :
    ((Anthropic.mk [] ⟨"key", "m", 8192, 900, 10 ^ 7, "", ""⟩
        ⟨0, 0, [], [], 0, []⟩).Translate (fun _ _ => Except.ok ⟨["HOLA"], 3, 4⟩)
        (fun _ => false) SaveFailure.write MetadataFile.absent 0 "ctx" "Hello" "en" "es"
        "Book").state.metadata.totalCalls = 0 + 1 ∧
    ((Anthropic.mk [] ⟨"key", "m", 8192, 900, 10 ^ 7, "", ""⟩
        ⟨0, 0, [], [], 0, []⟩).Translate (fun _ _ => Except.ok ⟨["HOLA"], 3, 4⟩)
        (fun _ => false) SaveFailure.marshal MetadataFile.absent 0 "ctx" "Hello" "en" "es"
        "Book").result = Except.ok "HOLA" := by
  have h := translate_backend_success_mutates_then_persists
    (Anthropic.mk [] ⟨"key", "m", 8192, 900, 10 ^ 7, "", ""⟩ ⟨0, 0, [], [], 0, []⟩)
    (fun _ _ => Except.ok ⟨["HOLA"], 3, 4⟩) (fun _ => false) SaveFailure.write
    MetadataFile.absent 0 "ctx" "Hello" "en" "es" "Book" "HOLA" (by rfl) (by decide)
  exact ⟨h.1.1, h.2.2 SaveFailure.marshal⟩

theorem cacheGet_cacheSetWithTTL_same (entries : List CacheEntry) (key value : String)
    (now ttl now₂ : Nat) :
    cacheGet (cacheSetWithTTL entries key value now ttl) now₂ key =
      if ttl = 0 then some value
      else if now₂ ≤ now + ttl then some value else none := by
  simp only [cacheGet, cacheSetWithTTL]
  rw [List.find?_cons_of_pos]
  · by_cases h : ttl = 0 <;> simp [h]
  · simp

theorem translate_cache_hit_eq
    (st : Anthropic)
    (backend : MessagesRequest → Nat → Except APIError MessagesResponse)
    (ctxDone : Nat → Bool) (sf : SaveFailure) (f : MetadataFile) (now : Nat)
    (p ct s t bn v : String) (hp : ¬p = "")
    (h : cacheGet st.cache now (generateCacheKey (p ++ ct) s t) = some v) :
    st.Translate backend ctxDone sf f now p ct s t bn =
      ⟨Except.ok v, st, f, [], 0, generateCacheKey (p ++ ct) s t⟩ := by
  simp only [Anthropic.Translate, hp, if_false, h]

theorem translate_backendAttempts_pos_of_cache_miss
    (st : Anthropic)
    (backend : MessagesRequest → Nat → Except APIError MessagesResponse)
    (ctxDone : Nat → Bool) (sf : SaveFailure) (f : MetadataFile) (now : Nat)
    (p ct s t bn : String)
    (h : (if p = "" then none else cacheGet st.cache now (generateCacheKey (p ++ ct) s t)) =
      (none : Option String)) :
    0 < (st.Translate backend ctxDone sf f now p ct s t bn).backendAttempts := by
  simp only [Anthropic.Translate, h]
  split
  · split
    · exact createMessageWithRetry_attempts_pos _ _
    · exact createMessageWithRetry_attempts_pos _ _
  · exact createMessageWithRetry_attempts_pos _ _

theorem translate_backend_success_state
    (a : Anthropic)
    (backend : MessagesRequest → Nat → Except APIError MessagesResponse)
    (ctxDone : Nat → Bool) (sf : SaveFailure) (f : MetadataFile) (now : Nat)
    (p ct s t bn v : String)
    (hok : (a.Translate backend ctxDone sf f now p ct s t bn).result = Except.ok v)
    (hbk : (a.Translate backend ctxDone sf f now p ct s t bn).backendAttempts ≠ 0) :
    (a.Translate backend ctxDone sf f now p ct s t bn).state.cache =
      cacheSetWithTTL a.cache (generateCacheKey (p ++ ct) s t) v now a.config.cacheTTL ∧
    (a.Translate backend ctxDone sf f now p ct s t bn).state.config = a.config := by
  revert hok hbk
  simp only [Anthropic.Translate]
  split
  · intro _ hbk
    exact absurd rfl hbk
  · split
    · split
      · intro hok _
        simp at hok
      · intro hok _
        simp only [Except.ok.injEq] at hok
        rw [hok]
        exact ⟨rfl, rfl⟩
    · intro hok _
      simp at hok

/-- C1 amended: for two Translate calls with identical
`(content, instructions, sourceLang, targetLang)` and NON-EMPTY
instructions, where the first call reached the backend and succeeded, a
second call within the cache TTL of the first makes no backend attempt and
returns the cached translation, and a second call after the TTL has
expired invokes the backend again. (The unamended claim fails when the
instructions are empty: `Translate` skips the cache lookup entirely in
that case, see the counterexample.) -/
theorem translate_cache_within_ttl_backend_once
    (a : Anthropic)
    (b₁ b₂ : MessagesRequest → Nat → Except APIError MessagesResponse)
    (c₁ c₂ : Nat → Bool) (sf₁ sf₂ : SaveFailure) (f₁ f₂ : MetadataFile)
    (now₁ now₂ : Nat) (prompt content source target bn₁ bn₂ v : String)
    (hp : prompt ≠ "") (httl : a.config.cacheTTL ≠ 0)
    (hok : (a.Translate b₁ c₁ sf₁ f₁ now₁ prompt content source target bn₁).result =
      Except.ok v)
    (hbk : (a.Translate b₁ c₁ sf₁ f₁ now₁ prompt content source target
      bn₁).backendAttempts ≠ 0) :
    (now₂ ≤ now₁ + a.config.cacheTTL →
      ((a.Translate b₁ c₁ sf₁ f₁ now₁ prompt content source target bn₁).state.Translate
          b₂ c₂ sf₂ f₂ now₂ prompt content source target bn₂).backendAttempts = 0 ∧
      ((a.Translate b₁ c₁ sf₁ f₁ now₁ prompt content source target bn₁).state.Translate
          b₂ c₂ sf₂ f₂ now₂ prompt content source target bn₂).result = Except.ok v) ∧
    (now₁ + a.config.cacheTTL < now₂ →
      0 < ((a.Translate b₁ c₁ sf₁ f₁ now₁ prompt content source target bn₁).state.Translate
          b₂ c₂ sf₂ f₂ now₂ prompt content source target bn₂).backendAttempts) := by
  obtain ⟨hcache, hconfig⟩ :=
    translate_backend_success_state a b₁ c₁ sf₁ f₁ now₁ prompt content source target bn₁ v
      hok hbk
  constructor
  · intro hw
    have hhit : cacheGet
        (a.Translate b₁ c₁ sf₁ f₁ now₁ prompt content source target bn₁).state.cache now₂
        (generateCacheKey (prompt ++ content) source target) = some v := by
      rw [hcache, cacheGet_cacheSetWithTTL_same]
      simp [httl, hw]
    rw [translate_cache_hit_eq _ b₂ c₂ sf₂ f₂ now₂ prompt content source target bn₂ v hp hhit]
    exact ⟨rfl, rfl⟩
  · intro ha
    apply translate_backendAttempts_pos_of_cache_miss
    have hmiss : cacheGet
        (a.Translate b₁ c₁ sf₁ f₁ now₁ prompt content source target bn₁).state.cache now₂
        (generateCacheKey (prompt ++ content) source target) = none := by
      rw [hcache, cacheGet_cacheSetWithTTL_same]
      have h1 : ¬now₂ ≤ now₁ + a.config.cacheTTL := by omega
      simp [httl, h1]
    simp [hp, hmiss]

/-- Witness for the amended C1: a concrete first call through the backend
followed by a second call 10 seconds later, served from the cache with no
backend attempt. -/
theorem translate_cache_within_ttl_backend_once_witness :
    (((Anthropic.mk [] ⟨"key", "m", 8192, 900, 10 ^ 7, "", ""⟩
          ⟨0, 0, [], [], 0, []⟩).Translate (fun _ _ => Except.ok ⟨["HOLA"], 3, 4⟩)
          (fun _ => false) SaveFailure.ok MetadataFile.absent 0 "ctx" "Hello" "en" "es"
          "Book").state.Translate (fun _ _ => Except.error (APIError.other "down"))
        (fun _ => false) SaveFailure.ok MetadataFile.absent 10 "ctx" "Hello" "en" "es"
        "Book").backendAttempts = 0 ∧
    (((Anthropic.mk [] ⟨"key", "m", 8192, 900, 10 ^ 7, "", ""⟩
          ⟨0, 0, [], [], 0, []⟩).Translate (fun _ _ => Except.ok ⟨["HOLA"], 3, 4⟩)
          (fun _ => false) SaveFailure.ok MetadataFile.absent 0 "ctx" "Hello" "en" "es"
          "Book").state.Translate (fun _ _ => Except.error (APIError.other "down"))
        (fun _ => false) SaveFailure.ok MetadataFile.absent 10 "ctx" "Hello" "en" "es"
        "Book").result = Except.ok "HOLA" :=
  (translate_cache_within_ttl_backend_once
    (Anthropic.mk [] ⟨"key", "m", 8192, 900, 10 ^ 7, "", ""⟩ ⟨0, 0, [], [], 0, []⟩)
    (fun _ _ => Except.ok ⟨["HOLA"], 3, 4⟩) (fun _ _ => Except.error (APIError.other "down"))
    (fun _ => false) (fun _ => false) SaveFailure.ok SaveFailure.ok MetadataFile.absent
    MetadataFile.absent 0 10 "ctx" "Hello" "en" "es" "Book" "Book" "HOLA"
    (by decide) (by decide) (by rfl) (by decide)).1 (by decide)

/-- C1 counterexample: with EMPTY instructions the cache lookup is skipped,
so a second call with identical `(content, instructions, sourceLang,
targetLang)` one second after a successful first call — well within the
15-minute TTL — still makes a backend attempt instead of returning the
cached translation without one. -/
theorem translate_empty_instructions_second_backend_call_counterexample :
    ((Anthropic.mk [] ⟨"key", "m", 8192, 900, 10 ^ 7, "", ""⟩
        ⟨0, 0, [], [], 0, []⟩).Translate (fun _ _ => Except.ok ⟨["HOLA"], 3, 4⟩)
        (fun _ => false) SaveFailure.ok MetadataFile.absent 0 "" "Hello" "en" "es"
        "Book").result = Except.ok "HOLA" ∧
    ((Anthropic.mk [] ⟨"key", "m", 8192, 900, 10 ^ 7, "", ""⟩
        ⟨0, 0, [], [], 0, []⟩).Translate (fun _ _ => Except.ok ⟨["HOLA"], 3, 4⟩)
        (fun _ => false) SaveFailure.ok MetadataFile.absent 0 "" "Hello" "en" "es"
        "Book").backendAttempts = 1 ∧
    (((Anthropic.mk [] ⟨"key", "m", 8192, 900, 10 ^ 7, "", ""⟩
          ⟨0, 0, [], [], 0, []⟩).Translate (fun _ _ => Except.ok ⟨["HOLA"], 3, 4⟩)
          (fun _ => false) SaveFailure.ok MetadataFile.absent 0 "" "Hello" "en" "es"
          "Book").state.Translate (fun _ _ => Except.ok ⟨["HOLA"], 3, 4⟩)
        (fun _ => false) SaveFailure.ok MetadataFile.absent 1 "" "Hello" "en" "es"
        "Book").backendAttempts = 1 :=
  ⟨rfl, rfl, rfl⟩
